import Mathlib

/-!
Verification of the trade simulation engine and its pluggable exit policies
(framework/backtester.py and framework/exit_models.py), shallowly embedded:
prices are exact rationals, candle sequences are lists, the engine is a pure
function, and raised exceptions are modelled with `Except String`.
-/

set_option linter.unusedVariables false

/-- One OHLCV bar. The `open` price field is named `opn` because `open` is a
reserved word; `atr` is the optional precomputed indicator column that
`AtrComboExit` reads from the entry candle (`none` models an absent column). -/
structure Candle where
  timestamp : Int
  opn : ℚ
  high : ℚ
  low : ℚ
  close : ℚ
  volume : ℚ
  atr : Option ℚ
deriving Repr, DecidableEq, Inhabited

/-- Result of an exit model: `(exit_price, reason, bars_held)`, where `reason`
is one of "TP", "SL", "TIME", "END_OF_DATA". -/
structure ExitResult where
  exit_price : ℚ
  reason : String
  bars_held : Nat
deriving Repr, DecidableEq, Inhabited

/-- The immutable per-trade record emitted by `run_backtest`. -/
structure Trade where
  entry_time : Int
  exit_time : Int
  symbol : String
  interval : String
  year : Int
  entry_price : ℚ
  exit_price : ℚ
  exit_reason : String
  bars_held : Nat
  leverage : Nat
  pnl_pct : ℚ
  pnl_gross_pct : ℚ
  fees_paid_pct : ℚ
deriving Repr, DecidableEq, Inhabited

/-- The threshold scan shared by FixedTPSL / ComboExit / AtrComboExit:
walk the candles in order, at each candle check the stop-loss condition
(`low <= sl_price`) first, then the take-profit condition (`high >= tp_price`);
return the first hit with its offset, or `none` when no candle qualifies.
`i` is the offset of the head of the remaining list. -/
def scanFixed (sl_price tp_price : ℚ) : List Candle → Nat → Option ExitResult
  | [], _ => none
  | row :: rest, i =>
    if row.low ≤ sl_price then some ⟨sl_price, "SL", i⟩
    else if row.high ≥ tp_price then some ⟨tp_price, "TP", i⟩
    else scanFixed sl_price tp_price rest (i + 1)

/-- FixedTPSL: `__init__` stores `tp_mult = 1 + tp_pct/100` and
`sl_mult = 1 - sl_pct/100`. -/
structure FixedTPSL where
  tp_mult : ℚ
  sl_mult : ℚ
deriving Repr, DecidableEq

/-- `FixedTPSL(tp_pct, sl_pct)` constructor. -/
def FixedTPSL.init (tp_pct sl_pct : ℚ) : FixedTPSL :=
  ⟨1 + tp_pct / 100, 1 - sl_pct / 100⟩

/-- `FixedTPSL.get_exit`: scan the whole forward window with the shared
threshold scan; if nothing hit, close at the last candle's close with reason
END_OF_DATA. An empty window raises (pandas `iloc[-1]` on an empty frame). -/
def FixedTPSL.get_exit (m : FixedTPSL) (entry_price : ℚ) (df : List Candle)
    (entry_candle : Option Candle) : Except String ExitResult :=
  let tp_price := entry_price * m.tp_mult
  let sl_price := entry_price * m.sl_mult
  match scanFixed sl_price tp_price df 0 with
  | some r => .ok r
  | none =>
    match df.getLast? with
    | some last => .ok ⟨last.close, "END_OF_DATA", df.length - 1⟩
    | none => .error "single positional indexer is out-of-bounds"

/-- TrailingStop: `__init__` stores `trail_pct / 100` (the source keeps the
attribute name `trail_pct` for the stored fraction). -/
structure TrailingStop where
  trail_pct : ℚ
deriving Repr, DecidableEq

/-- `TrailingStop(trail_pct)` constructor. -/
def TrailingStop.init (trail_pct : ℚ) : TrailingStop :=
  ⟨trail_pct / 100⟩

/-- The TrailingStop loop: `highest` is the running highest-high (seeded with
`entry_price` by `get_exit`), updated with each candle's high before the stop
`highest * (1 - trail)` is compared against the candle's low. -/
def trailScan (trail : ℚ) : ℚ → List Candle → Nat → Option ExitResult
  | _, [], _ => none
  | highest, row :: rest, i =>
    let h := max highest row.high
    let stop := h * (1 - trail)
    if row.low ≤ stop then some ⟨stop, "SL", i⟩
    else trailScan trail h rest (i + 1)

/-- `TrailingStop.get_exit`. -/
def TrailingStop.get_exit (m : TrailingStop) (entry_price : ℚ) (df : List Candle)
    (entry_candle : Option Candle) : Except String ExitResult :=
  match trailScan m.trail_pct entry_price df 0 with
  | some r => .ok r
  | none =>
    match df.getLast? with
    | some last => .ok ⟨last.close, "END_OF_DATA", df.length - 1⟩
    | none => .error "single positional indexer is out-of-bounds"

/-- The successive values taken by the running highest-high inside the
TrailingStop scan, one per scanned candle, starting from seed `highest`. -/
def highTrace (highest : ℚ) : List Candle → List ℚ
  | [] => []
  | row :: rest =>
    let h := max highest row.high
    h :: highTrace h rest

/-- The successive stop levels `highest * (1 - trail)` computed by the
TrailingStop scan, one per scanned candle. -/
def stopTrace (trail highest : ℚ) (df : List Candle) : List ℚ :=
  (highTrace highest df).map (fun h => h * (1 - trail))

/-- TimeBased exit model. -/
structure TimeBased where
  max_bars : Nat
deriving Repr, DecidableEq

/-- `TimeBased.get_exit`: exit unconditionally at offset
`min(max_bars, len(df)-1)`; reason TIME when that equals `max_bars`, else
END_OF_DATA. An empty window raises. -/
def TimeBased.get_exit (m : TimeBased) (entry_price : ℚ) (df : List Candle)
    (entry_candle : Option Candle) : Except String ExitResult :=
  if df.isEmpty then .error "single positional indexer is out-of-bounds"
  else
    let bars := min m.max_bars (df.length - 1)
    let exit_price := (df.getD bars default).close
    let reason := if bars = m.max_bars then "TIME" else "END_OF_DATA"
    .ok ⟨exit_price, reason, bars⟩

/-- ComboExit: TP + SL + max time limit; `__init__` stores the multipliers. -/
structure ComboExit where
  tp_mult : ℚ
  sl_mult : ℚ
  max_bars : Nat
deriving Repr, DecidableEq

/-- `ComboExit(tp_pct, sl_pct, max_bars)` constructor. -/
def ComboExit.init (tp_pct sl_pct : ℚ) (max_bars : Nat) : ComboExit :=
  ⟨1 + tp_pct / 100, 1 - sl_pct / 100, max_bars⟩

/-- `ComboExit.get_exit`: scan candles at offsets `0..limit` where
`limit = min(max_bars, len(df)-1)` (`for i in range(limit+1)`), SL before TP;
if nothing hit, exit at `df[limit].close` with reason TIME when
`limit = max_bars`, else END_OF_DATA. An empty window raises. -/
def ComboExit.get_exit (m : ComboExit) (entry_price : ℚ) (df : List Candle)
    (entry_candle : Option Candle) : Except String ExitResult :=
  if df.isEmpty then .error "single positional indexer is out-of-bounds"
  else
    let tp_price := entry_price * m.tp_mult
    let sl_price := entry_price * m.sl_mult
    let limit := min m.max_bars (df.length - 1)
    match scanFixed sl_price tp_price (df.take (limit + 1)) 0 with
    | some r => .ok r
    | none =>
      let exit_price := (df.getD limit default).close
      let reason := if limit = m.max_bars then "TIME" else "END_OF_DATA"
      .ok ⟨exit_price, reason, limit⟩

/-- AtrComboExit: TP/SL offsets are ATR multiples read from the entry candle. -/
structure AtrComboExit where
  tp_atr_mult : ℚ
  sl_atr_mult : ℚ
  max_bars : Nat
deriving Repr, DecidableEq

/-- `AtrComboExit.get_exit`: raises ValueError when no entry candle is given or
its `atr` field is absent; otherwise `tp = entry + atr*tp_atr_mult`,
`sl = entry - atr*sl_atr_mult`, and the same capped scan as ComboExit. -/
def AtrComboExit.get_exit (m : AtrComboExit) (entry_price : ℚ) (df : List Candle)
    (entry_candle : Option Candle) : Except String ExitResult :=
  match entry_candle with
  | none => .error "AtrComboExit requires atr column to be present in df / entry_candle"
  | some ec =>
    match ec.atr with
    | none => .error "AtrComboExit requires atr column to be present in df / entry_candle"
    | some atr =>
      if df.isEmpty then .error "single positional indexer is out-of-bounds"
      else
        let tp_price := entry_price + atr * m.tp_atr_mult
        let sl_price := entry_price - atr * m.sl_atr_mult
        let limit := min m.max_bars (df.length - 1)
        match scanFixed sl_price tp_price (df.take (limit + 1)) 0 with
        | some r => .ok r
        | none =>
          let exit_price := (df.getD limit default).close
          let reason := if limit = m.max_bars then "TIME" else "END_OF_DATA"
          .ok ⟨exit_price, reason, limit⟩

/-- An exit model as the engine sees it: the engine always reaches a model
through this shape (the source's try/except signature probing always succeeds
on the 3-argument form for every model in the repository). -/
abbrev ExitModelFn := ℚ → List Candle → Candle → Except String ExitResult

/-- `FixedTPSL` packaged for the engine. -/
def FixedTPSL.toModel (m : FixedTPSL) : ExitModelFn :=
  fun p df ec => m.get_exit p df (some ec)

/-- `TrailingStop` packaged for the engine. -/
def TrailingStop.toModel (m : TrailingStop) : ExitModelFn :=
  fun p df ec => m.get_exit p df (some ec)

/-- `TimeBased` packaged for the engine. -/
def TimeBased.toModel (m : TimeBased) : ExitModelFn :=
  fun p df ec => m.get_exit p df (some ec)

/-- `ComboExit` packaged for the engine. -/
def ComboExit.toModel (m : ComboExit) : ExitModelFn :=
  fun p df ec => m.get_exit p df (some ec)

/-- `AtrComboExit` packaged for the engine. -/
def AtrComboExit.toModel (m : AtrComboExit) : ExitModelFn :=
  fun p df ec => m.get_exit p df (some ec)

/-- The engine's liquidation scan (`for liq_i, liq_row in enumerate(future_df)`):
the offset of the first forward candle whose low is at or below the
liquidation price, or `none`. `i` is the offset of the head. -/
def liqScan (liquidation_price : ℚ) : List Candle → Nat → Option Nat
  | [], _ => none
  | row :: rest, i =>
    if row.low ≤ liquidation_price then some i
    else liqScan liquidation_price rest (i + 1)

/-- The liquidation price: `entry_price * (1 - 1/leverage + 0.005)` when
`leverage > 1`, else the placeholder 0 (never compared in that case). -/
def liqPriceOf (entry_price : ℚ) (leverage : Nat) : ℚ :=
  if leverage > 1 then entry_price * (1 - 1 / (leverage : ℚ) + 5 / 1000) else 0

/-- The slippage-adjusted entry price for a signal at index `sig_idx`:
the next candle's open times `(1 + slippage_pct/100)`. -/
def entryPriceOf (df : List Candle) (slippage_pct : ℚ) (sig_idx : Nat) : ℚ :=
  (df.getD (sig_idx + 1) default).opn * (1 + slippage_pct / 100)

/-- The body of `run_backtest`'s per-signal loop: `.ok none` when the signal is
dropped (no room to enter, or empty forward window), `.ok (some trade)` when a
trade is emitted, `.error` when the exit model raises. -/
def processSignal (df : List Candle) (exit_model : ExitModelFn)
    (symbol interval : String) (year : Int) (fees_pct slippage_pct : ℚ)
    (leverage : Nat) (sig_idx : Nat) : Except String (Option Trade) :=
  let entry_idx := sig_idx + 1
  if entry_idx < df.length then
    let entry_candle := df.getD entry_idx default
    let entry_price := entry_candle.opn * (1 + slippage_pct / 100)
    let entry_time := entry_candle.timestamp
    let liquidation_price := liqPriceOf entry_price leverage
    let future_df := df.drop (entry_idx + 1)
    if future_df.isEmpty then .ok none
    else
      match (if leverage > 1 then liqScan liquidation_price future_df 0 else none) with
      | some liq_i =>
        let liq_exit_idx := min (entry_idx + 1 + liq_i) (df.length - 1)
        .ok (some
          { entry_time := entry_time
            exit_time := (df.getD liq_exit_idx default).timestamp
            symbol := symbol
            interval := interval
            year := year
            entry_price := entry_price
            exit_price := liquidation_price
            exit_reason := "LIQUIDATED"
            bars_held := liq_i
            leverage := leverage
            pnl_pct := -100
            pnl_gross_pct := -100
            fees_paid_pct := fees_pct * 2 })
      | none =>
        match exit_model entry_price future_df entry_candle with
        | .error e => .error e
        | .ok result =>
          let exit_idx := min (entry_idx + 1 + result.bars_held) (df.length - 1)
          let gross_pnl := (result.exit_price / entry_price - 1) * 100 * (leverage : ℚ)
          let total_fees := fees_pct * 2 * (leverage : ℚ)
          let net_pnl := gross_pnl - total_fees
          .ok (some
            { entry_time := entry_time
              exit_time := (df.getD exit_idx default).timestamp
              symbol := symbol
              interval := interval
              year := year
              entry_price := entry_price
              exit_price := result.exit_price
              exit_reason := result.reason
              bars_held := result.bars_held
              leverage := leverage
              pnl_pct := net_pnl
              pnl_gross_pct := gross_pnl
              fees_paid_pct := total_fees })
  else .ok none

/-- The ascending list of indices at which the signal series is true
(`signals[signals].index.tolist()`). -/
def signalIndices (signals : List Bool) : List Nat :=
  (List.range signals.length).filter (fun i => signals.getD i false)

/-- `run_backtest`'s main loop over the signal indices: trades accumulate in
order; an exception raised for any signal aborts the whole call. -/
def runSignals (df : List Candle) (exit_model : ExitModelFn)
    (symbol interval : String) (year : Int) (fees_pct slippage_pct : ℚ)
    (leverage : Nat) : List Nat → Except String (List Trade)
  | [] => .ok []
  | s :: rest =>
    match processSignal df exit_model symbol interval year fees_pct slippage_pct leverage s with
    | .error e => .error e
    | .ok none => runSignals df exit_model symbol interval year fees_pct slippage_pct leverage rest
    | .ok (some t) =>
      match runSignals df exit_model symbol interval year fees_pct slippage_pct leverage rest with
      | .error e => .error e
      | .ok ts => .ok (t :: ts)

/-- `run_backtest(df, signals, exit_model, symbol, interval, year, fees_pct,
slippage_pct, leverage)`. Source defaults: fees_pct=0.05, slippage_pct=0.1,
leverage=1. -/
def run_backtest (df : List Candle) (signals : List Bool) (exit_model : ExitModelFn)
    (symbol interval : String) (year : Int) (fees_pct slippage_pct : ℚ)
    (leverage : Nat) : Except String (List Trade) :=
  runSignals df exit_model symbol interval year fees_pct slippage_pct leverage
    (signalIndices signals)

/-! ### Helper lemmas -/

/-- `liqScan` hits offset `k + i` when candle `i` is the first of the scanned
list whose low is at or below the liquidation price. -/
theorem liqScan_eq_first (liq : ℚ) (l : List Candle) (i k : Nat)
    (hi : i < l.length)
    (hhit : (l.getD i default).low ≤ liq)
    (hfirst : ∀ j, j < i → ¬ (l.getD j default).low ≤ liq) :
    liqScan liq l k = some (k + i) := by
  induction l generalizing i k with
  | nil => simp at hi
  | cons row rest ih =>
    cases i with
    | zero =>
      simp only [List.getD_cons_zero] at hhit
      simp [liqScan, hhit]
    | succ n =>
      have h0 := hfirst 0 (Nat.succ_pos n)
      simp only [List.getD_cons_zero] at h0
      have hrec := ih n (k + 1) (by simpa using hi) (by simpa using hhit)
        (fun j hj => by simpa using hfirst (j + 1) (Nat.succ_lt_succ hj))
      simp only [liqScan, if_neg h0, hrec]
      congr 1
      omega

/-- Any hit of the shared threshold scan carries reason SL or TP and an offset
within the scanned list (shifted by the running offset `k`). -/
theorem scanFixed_some_spec (sl tp : ℚ) (l : List Candle) (k : Nat) (r : ExitResult)
    (h : scanFixed sl tp l k = some r) :
    (r.reason = "SL" ∨ r.reason = "TP") ∧ k ≤ r.bars_held ∧ r.bars_held < k + l.length := by
  induction l generalizing k with
  | nil => simp [scanFixed] at h
  | cons row rest ih =>
    rw [scanFixed] at h
    by_cases hsl : row.low ≤ sl
    · rw [if_pos hsl] at h
      cases h
      refine ⟨Or.inl rfl, le_refl k, ?_⟩
      simp
    · rw [if_neg hsl] at h
      by_cases htp : row.high ≥ tp
      · rw [if_pos htp] at h
        cases h
        refine ⟨Or.inr rfl, le_refl k, ?_⟩
        simp
      · rw [if_neg htp] at h
        obtain ⟨hr, hk, hlt⟩ := ih (k + 1) h
        exact ⟨hr, by omega, by simp only [List.length_cons]; omega⟩

/-- The shared threshold scan returns SL at offset `k + i` when candle `i`'s
low reaches the stop level and no earlier candle touches either threshold. -/
theorem scanFixed_eq_first_SL (sl tp : ℚ) (l : List Candle) (i k : Nat)
    (hi : i < l.length)
    (hlow : (l.getD i default).low ≤ sl)
    (hfirst : ∀ j, j < i →
      ¬ (l.getD j default).low ≤ sl ∧ ¬ (l.getD j default).high ≥ tp) :
    scanFixed sl tp l k = some ⟨sl, "SL", k + i⟩ := by
  induction l generalizing i k with
  | nil => simp at hi
  | cons row rest ih =>
    cases i with
    | zero =>
      simp only [List.getD_cons_zero] at hlow
      simp [scanFixed, hlow]
    | succ n =>
      obtain ⟨h0l, h0h⟩ := hfirst 0 (Nat.succ_pos n)
      simp only [List.getD_cons_zero] at h0l h0h
      have hrec := ih n (k + 1) (by simpa using hi) (by simpa using hlow)
        (fun j hj => by simpa using hfirst (j + 1) (Nat.succ_lt_succ hj))
      simp only [scanFixed, if_neg h0l, if_neg h0h, hrec]
      congr 2
      omega

/-- Reading inside `List.take` agrees with the original list below the cut. -/
theorem getD_take_eq (l : List Candle) (n j : Nat) (hj : j < n) (d : Candle) :
    (l.take n).getD j d = l.getD j d := by
  induction l generalizing n j with
  | nil => simp
  | cons a rest ih =>
    cases n with
    | zero => omega
    | succ m =>
      cases j with
      | zero => simp
      | succ jj => simpa using ih m jj (by omega) 

/-! ### C10 -/

/-- C10: `run_backtest` is deterministic — two invocations with identical
candles, signals, exit model, and execution parameters produce identical
trade lists, equal in order and in every field. -/
theorem C10_run_backtest_deterministic (df₁ df₂ : List Candle) (sg₁ sg₂ : List Bool)
    (em₁ em₂ : ExitModelFn) (sy₁ sy₂ iv₁ iv₂ : String) (yr₁ yr₂ : Int)
    (f₁ f₂ sp₁ sp₂ : ℚ) (lv₁ lv₂ : Nat)
    (hdf : df₁ = df₂) (hsg : sg₁ = sg₂) (hem : em₁ = em₂) (hsy : sy₁ = sy₂)
    (hiv : iv₁ = iv₂) (hyr : yr₁ = yr₂) (hf : f₁ = f₂) (hsp : sp₁ = sp₂)
    (hlv : lv₁ = lv₂) :
    run_backtest df₁ sg₁ em₁ sy₁ iv₁ yr₁ f₁ sp₁ lv₁
      = run_backtest df₂ sg₂ em₂ sy₂ iv₂ yr₂ f₂ sp₂ lv₂ := by
  subst hdf hsg hem hsy hiv hyr hf hsp hlv
  rfl

/-- Witness for C10 at a concrete two-signal input. -/
theorem C10_run_backtest_deterministic_witness :
    run_backtest
      [⟨0, 1, 1, 1, 1, 0, none⟩, ⟨1, 100, 101, 99, 100, 0, none⟩,
       ⟨2, 100, 103, 99, 102, 0, none⟩]
      [true, false, false] (FixedTPSL.init 2 1).toModel "BTCUSDT" "1h" 2024
      (1/20) (1/10) 1
    = run_backtest
      [⟨0, 1, 1, 1, 1, 0, none⟩, ⟨1, 100, 101, 99, 100, 0, none⟩,
       ⟨2, 100, 103, 99, 102, 0, none⟩]
      [true, false, false] (FixedTPSL.init 2 1).toModel "BTCUSDT" "1h" 2024
      (1/20) (1/10) 1 :=
  C10_run_backtest_deterministic _ _ _ _ _ _ _ _ _ _ _ _ _ _ _ _ _ _
    rfl rfl rfl rfl rfl rfl rfl rfl rfl

/-! ### C8 -/

/-- C8: a signal on the last candle (entry index beyond the end of the series)
or a signal whose forward window is empty produces no trade and raises no
error: `processSignal` returns `.ok none` and the loop continues with the
remaining signals unchanged. -/
theorem C8_signal_dropped_silently (df : List Candle) (em : ExitModelFn)
    (symbol interval : String) (year : Int) (fees slip : ℚ) (lev : Nat)
    (s : Nat) (rest : List Nat)
    (h : df.length ≤ s + 1 ∨ df.drop (s + 2) = []) :
    processSignal df em symbol interval year fees slip lev s = .ok none ∧
    runSignals df em symbol interval year fees slip lev (s :: rest)
      = runSignals df em symbol interval year fees slip lev rest := by
  have hps : processSignal df em symbol interval year fees slip lev s = .ok none := by
    unfold processSignal
    rcases h with h | h
    · rw [if_neg (by omega)]
    · by_cases hlt : s + 1 < df.length
      · have hdrop : df.drop (s + 1 + 1) = [] := h
        simp [hlt, hdrop]
      · rw [if_neg hlt]
  refine ⟨hps, ?_⟩
  simp only [runSignals, hps]

/-- Witness for C8: a two-candle series with the signal on the last candle. -/
theorem C8_signal_dropped_silently_witness :
    processSignal [⟨0, 1, 1, 1, 1, 0, none⟩, ⟨1, 2, 2, 2, 2, 0, none⟩]
      (FixedTPSL.init 2 1).toModel "BTCUSDT" "1h" 2024 (1/20) (1/10) 1 1
      = .ok none ∧
    runSignals [⟨0, 1, 1, 1, 1, 0, none⟩, ⟨1, 2, 2, 2, 2, 0, none⟩]
      (FixedTPSL.init 2 1).toModel "BTCUSDT" "1h" 2024 (1/20) (1/10) 1 [1]
      = runSignals [⟨0, 1, 1, 1, 1, 0, none⟩, ⟨1, 2, 2, 2, 2, 0, none⟩]
      (FixedTPSL.init 2 1).toModel "BTCUSDT" "1h" 2024 (1/20) (1/10) 1 [] :=
  C8_signal_dropped_silently _ _ _ _ _ _ _ _ 1 [] (Or.inl (by decide))

/-! ### C5 -/

/-- C5: for every signal index `s` with `signals[s]` true and a valid entry
(`s+1` within the series), the emitted trade's entry time is the timestamp of
candle `s+1` and its entry price is `candles[s+1].open * (1 + slippage_pct/100)`;
with nonnegative slippage and a nonnegative open this is at least the quoted
open, so slippage acts against the trader. -/
theorem C5_entry_time_and_slippage (df : List Candle) (signals : List Bool)
    (em : ExitModelFn) (symbol interval : String) (year : Int)
    (fees slip : ℚ) (lev : Nat) (s : Nat) (t : Trade)
    (hs : s < signals.length) (hsig : signals.getD s false = true)
    (hentry : s + 1 < df.length)
    (hrun : processSignal df em symbol interval year fees slip lev s
      = .ok (some t)) :
    s ∈ signalIndices signals ∧
    t.entry_time = (df.getD (s + 1) default).timestamp ∧
    t.entry_price = (df.getD (s + 1) default).opn * (1 + slip / 100) ∧
    (0 ≤ slip → 0 ≤ (df.getD (s + 1) default).opn →
      (df.getD (s + 1) default).opn ≤ t.entry_price) := by
  have hmem : s ∈ signalIndices signals :=
    List.mem_filter.2 ⟨List.mem_range.2 hs, hsig⟩
  have hfields : t.entry_time = (df.getD (s + 1) default).timestamp ∧
      t.entry_price = (df.getD (s + 1) default).opn * (1 + slip / 100) := by
    simp only [processSignal] at hrun
    rw [if_pos hentry] at hrun
    by_cases hemp : (List.drop (s + 1 + 1) df).isEmpty = true
    · rw [if_pos hemp] at hrun
      exact absurd hrun (by simp)
    · rw [if_neg hemp] at hrun
      cases hliq : (if lev > 1 then
          liqScan (liqPriceOf ((df.getD (s + 1) default).opn * (1 + slip / 100)) lev)
            (List.drop (s + 1 + 1) df) 0
        else none) with
      | some liq_i =>
        rw [hliq] at hrun
        simp only [Except.ok.injEq, Option.some.injEq] at hrun
        subst hrun
        exact ⟨rfl, rfl⟩
      | none =>
        rw [hliq] at hrun
        cases hres : em ((df.getD (s + 1) default).opn * (1 + slip / 100))
            (List.drop (s + 1 + 1) df) (df.getD (s + 1) default) with
        | error e =>
          rw [hres] at hrun
          exact absurd hrun (by simp)
        | ok result =>
          rw [hres] at hrun
          simp only [Except.ok.injEq, Option.some.injEq] at hrun
          subst hrun
          exact ⟨rfl, rfl⟩
  refine ⟨hmem, hfields.1, hfields.2, fun hsl hop => ?_⟩
  rw [hfields.2]
  nlinarith [hop, hsl]

/-- A concrete three-candle series used by witnesses. -/
def wCandles : List Candle :=
  [⟨0, 1, 1, 1, 1, 0, none⟩, ⟨7, 100, 101, 99, 100, 0, none⟩,
   ⟨8, 100, 103, 99, 102, 0, none⟩]

/-- The trade emitted for the signal at index 0 of `wCandles` under
`FixedTPSL.init 2 1`, zero fees and slippage, leverage 1. -/
def wTrade5 : Trade :=
  ⟨7, 8, "BTCUSDT", "1h", 2024, 100, 99, "SL", 0, 1, -1, -1, 0⟩

/-- Witness for C5: one signal, entry at the open of candle 1. -/
theorem C5_entry_time_and_slippage_witness :
    (0 : Nat) ∈ signalIndices [true, false, false] ∧
    wTrade5.entry_time = (wCandles.getD 1 default).timestamp ∧
    wTrade5.entry_price = (wCandles.getD 1 default).opn * (1 + (0 : ℚ) / 100) ∧
    ((0 : ℚ) ≤ 0 → 0 ≤ (wCandles.getD 1 default).opn →
      (wCandles.getD 1 default).opn ≤ wTrade5.entry_price) :=
  C5_entry_time_and_slippage wCandles [true, false, false]
    (FixedTPSL.init 2 1).toModel "BTCUSDT" "1h" 2024 0 0 1 0 wTrade5
    (by decide) (by decide) (by decide)
    (by simp [processSignal, liqPriceOf, FixedTPSL.toModel, FixedTPSL.get_exit,
          FixedTPSL.init, scanFixed, wCandles, wTrade5]
        norm_num)

/-! ### Liquidation and exit-branch helpers -/

/-- When the entry is valid, the forward window nonempty, leverage above 1 and
the liquidation scan hits offset `i`, the per-signal body emits exactly the
liquidation trade — for any exit model, which is never consulted. -/
theorem processSignal_liquidated (df : List Candle) (em : ExitModelFn)
    (symbol interval : String) (year : Int) (fees slip : ℚ) (lev : Nat) (s i : Nat)
    (hentry : s + 1 < df.length)
    (hfut : ¬ (df.drop (s + 2)).isEmpty = true)
    (hlev : 1 < lev)
    (hliq : liqScan (liqPriceOf (entryPriceOf df slip s) lev) (df.drop (s + 2)) 0
      = some i) :
    processSignal df em symbol interval year fees slip lev s = .ok (some
      { entry_time := (df.getD (s + 1) default).timestamp
        exit_time := (df.getD (min (s + 2 + i) (df.length - 1)) default).timestamp
        symbol := symbol
        interval := interval
        year := year
        entry_price := entryPriceOf df slip s
        exit_price := liqPriceOf (entryPriceOf df slip s) lev
        exit_reason := "LIQUIDATED"
        bars_held := i
        leverage := lev
        pnl_pct := -100
        pnl_gross_pct := -100
        fees_paid_pct := fees * 2 }) := by
  simp only [entryPriceOf] at hliq ⊢
  simp only [processSignal]
  rw [if_pos hentry]
  rw [show ((s : Nat) + 1 + 1) = s + 2 from rfl]
  rw [if_neg hfut, if_pos hlev, hliq]

/-- When the entry is valid, the forward window nonempty, the liquidation
branch not taken and the exit model returns a decision, the per-signal body
emits the trade built from that decision by the PnL formulas. -/
theorem processSignal_exit (df : List Candle) (em : ExitModelFn)
    (symbol interval : String) (year : Int) (fees slip : ℚ) (lev : Nat)
    (s : Nat) (r : ExitResult)
    (hentry : s + 1 < df.length)
    (hfut : ¬ (df.drop (s + 2)).isEmpty = true)
    (hnoliq : (if lev > 1 then
        liqScan (liqPriceOf (entryPriceOf df slip s) lev) (df.drop (s + 2)) 0
      else none) = none)
    (hexit : em (entryPriceOf df slip s) (df.drop (s + 2)) (df.getD (s + 1) default)
      = .ok r) :
    processSignal df em symbol interval year fees slip lev s = .ok (some
      { entry_time := (df.getD (s + 1) default).timestamp
        exit_time := (df.getD (min (s + 2 + r.bars_held) (df.length - 1)) default).timestamp
        symbol := symbol
        interval := interval
        year := year
        entry_price := entryPriceOf df slip s
        exit_price := r.exit_price
        exit_reason := r.reason
        bars_held := r.bars_held
        leverage := lev
        pnl_pct := (r.exit_price / entryPriceOf df slip s - 1) * 100 * (lev : ℚ)
          - fees * 2 * (lev : ℚ)
        pnl_gross_pct := (r.exit_price / entryPriceOf df slip s - 1) * 100 * (lev : ℚ)
        fees_paid_pct := fees * 2 * (lev : ℚ) }) := by
  simp only [entryPriceOf] at hnoliq hexit ⊢
  simp only [processSignal]
  rw [if_pos hentry]
  rw [show ((s : Nat) + 1 + 1) = s + 2 from rfl]
  rw [if_neg hfut, hnoliq, hexit]

/-! ### C1 -/

/-- C1: with leverage > 1 the engine computes
`liq_price = entry_price * (1 - 1/leverage + 0.005)` and the first forward
candle whose low is at or below it force-closes the position: reason
LIQUIDATED, exit_price = liq_price, pnl_pct = pnl_gross_pct = -100,
fees_paid_pct = fees_pct * 2 (not leverage-scaled), bars_held = the candle's
offset in the forward window — and the exit policy is never consulted (the
same trade results for every exit model). -/
theorem C1_liquidation_force_close (df : List Candle)
    (symbol interval : String) (year : Int) (fees slip : ℚ) (lev : Nat) (s i : Nat)
    (hlev : 1 < lev) (hentry : s + 1 < df.length)
    (hi : i < (df.drop (s + 2)).length)
    (hhit : ((df.drop (s + 2)).getD i default).low
      ≤ liqPriceOf (entryPriceOf df slip s) lev)
    (hfirst : ∀ j, j < i →
      ¬ ((df.drop (s + 2)).getD j default).low
        ≤ liqPriceOf (entryPriceOf df slip s) lev) :
    ∃ t : Trade,
      (∀ em : ExitModelFn,
        processSignal df em symbol interval year fees slip lev s = .ok (some t)) ∧
      t.exit_reason = "LIQUIDATED" ∧
      t.exit_price = entryPriceOf df slip s * (1 - 1 / (lev : ℚ) + 5 / 1000) ∧
      t.pnl_pct = -100 ∧ t.pnl_gross_pct = -100 ∧
      t.fees_paid_pct = fees * 2 ∧ t.bars_held = i := by
  have hfut : ¬ (df.drop (s + 2)).isEmpty = true := by
    intro h
    rw [List.isEmpty_iff] at h
    rw [h] at hi
    simp at hi
  have hscan : liqScan (liqPriceOf (entryPriceOf df slip s) lev) (df.drop (s + 2)) 0
      = some i := by
    simpa using liqScan_eq_first _ _ i 0 hi hhit hfirst
  refine ⟨_, fun em =>
    processSignal_liquidated df em symbol interval year fees slip lev s i
      hentry hfut hlev hscan, rfl, ?_, rfl, rfl, rfl, rfl⟩
  simp [liqPriceOf, hlev]

/-- Candle series for liquidation witnesses: signal at index 0, entry at
candle 1 (open 100); in the forward window the first candle touches the 2% TP
threshold and the second breaches the leverage-5 liquidation price 80.5. -/
def wLiqCandles : List Candle :=
  [⟨0, 1, 1, 1, 1, 0, none⟩, ⟨1, 100, 101, 99, 100, 0, none⟩,
   ⟨2, 100, 105, 100, 101, 0, none⟩, ⟨3, 100, 100, 80, 85, 0, none⟩]

/-- Witness for C1: leverage 5, first liquidation breach at forward offset 1. -/
theorem C1_liquidation_force_close_witness :
    ∃ t : Trade,
      (∀ em : ExitModelFn,
        processSignal wLiqCandles em "BTCUSDT" "1h" 2024 (1/20) 0 5 0
          = .ok (some t)) ∧
      t.exit_reason = "LIQUIDATED" ∧
      t.exit_price = entryPriceOf wLiqCandles 0 0 * (1 - 1 / ((5 : Nat) : ℚ) + 5 / 1000) ∧
      t.pnl_pct = -100 ∧ t.pnl_gross_pct = -100 ∧
      t.fees_paid_pct = (1/20) * 2 ∧ t.bars_held = 1 :=
  C1_liquidation_force_close wLiqCandles "BTCUSDT" "1h" 2024 (1/20) 0 5 0 1
    (by decide) (by decide) (by decide)
    (by norm_num [wLiqCandles, entryPriceOf, liqPriceOf])
    (by intro j hj
        interval_cases j
        norm_num [wLiqCandles, entryPriceOf, liqPriceOf])

/-! ### C6 -/

/-- C6: with leverage > 1 the liquidation scan covers the whole forward window
before the exit policy is consulted: a liquidation breach at offset `i` wins
even when the ComboExit policy would have exited with TP or SL at a strictly
earlier candle — liquidation priority is global over the window, not a
same-candle tie-break. -/
theorem C6_liquidation_priority_global (df : List Candle) (m : ComboExit)
    (symbol interval : String) (year : Int) (fees slip : ℚ) (lev : Nat)
    (s i : Nat) (r : ExitResult)
    (hlev : 1 < lev) (hentry : s + 1 < df.length)
    (hfut : df.drop (s + 2) ≠ [])
    (hliq : liqScan (liqPriceOf (entryPriceOf df slip s) lev) (df.drop (s + 2)) 0
      = some i)
    (hexit : m.get_exit (entryPriceOf df slip s) (df.drop (s + 2))
      (some (df.getD (s + 1) default)) = .ok r)
    (hthreshold : r.reason = "TP" ∨ r.reason = "SL")
    (hearlier : r.bars_held < i) :
    ∃ t : Trade,
      processSignal df m.toModel symbol interval year fees slip lev s
        = .ok (some t) ∧
      t.exit_reason = "LIQUIDATED" ∧ t.bars_held = i := by
  have hfut' : ¬ (df.drop (s + 2)).isEmpty = true := by
    simpa [List.isEmpty_iff] using hfut
  exact ⟨_, processSignal_liquidated df m.toModel symbol interval year fees slip
    lev s i hentry hfut' hlev hliq, rfl, rfl⟩

/-- Witness for C6: the ComboExit policy would take TP at forward offset 0, but
the liquidation breach at offset 1 still wins. -/
theorem C6_liquidation_priority_global_witness :
    ∃ t : Trade,
      processSignal wLiqCandles (ComboExit.init 2 1 5).toModel "BTCUSDT" "1h" 2024
        (1/20) 0 5 0 = .ok (some t) ∧
      t.exit_reason = "LIQUIDATED" ∧ t.bars_held = 1 :=
  C6_liquidation_priority_global wLiqCandles (ComboExit.init 2 1 5)
    "BTCUSDT" "1h" 2024 (1/20) 0 5 0 1 ⟨102, "TP", 0⟩
    (by decide) (by decide) (by decide)
    (by norm_num [liqScan, wLiqCandles, entryPriceOf, liqPriceOf])
    (by simp [ComboExit.get_exit, ComboExit.init, scanFixed, wLiqCandles,
          entryPriceOf]
        norm_num)
    (Or.inl rfl) (by decide)

/-! ### C4 -/

/-- C4: for every non-liquidated trade, `pnl_gross_pct` equals
`(exit_price/entry_price - 1) * 100 * leverage`, `fees_paid_pct` equals
`fees_pct * 2 * leverage`, and `pnl_pct` equals their difference. -/
theorem C4_pnl_formulas (df : List Candle) (em : ExitModelFn)
    (symbol interval : String) (year : Int) (fees slip : ℚ) (lev : Nat)
    (s : Nat) (r : ExitResult)
    (hentry : s + 1 < df.length)
    (hfut : df.drop (s + 2) ≠ [])
    (hnoliq : (if lev > 1 then
        liqScan (liqPriceOf (entryPriceOf df slip s) lev) (df.drop (s + 2)) 0
      else none) = none)
    (hexit : em (entryPriceOf df slip s) (df.drop (s + 2)) (df.getD (s + 1) default)
      = .ok r) :
    ∃ t : Trade,
      processSignal df em symbol interval year fees slip lev s = .ok (some t) ∧
      t.entry_price = entryPriceOf df slip s ∧
      t.exit_price = r.exit_price ∧
      t.pnl_gross_pct = (r.exit_price / entryPriceOf df slip s - 1) * 100 * (lev : ℚ) ∧
      t.fees_paid_pct = fees * 2 * (lev : ℚ) ∧
      t.pnl_pct = t.pnl_gross_pct - t.fees_paid_pct := by
  have hfut' : ¬ (df.drop (s + 2)).isEmpty = true := by
    simpa [List.isEmpty_iff] using hfut
  exact ⟨_, processSignal_exit df em symbol interval year fees slip lev s r
    hentry hfut' hnoliq hexit, rfl, rfl, rfl, rfl, rfl⟩

/-- Witness for C4: leverage 1, FixedTPSL stop-loss exit at 99 from entry 100
with fees 0.05% per side. -/
theorem C4_pnl_formulas_witness :
    ∃ t : Trade,
      processSignal wCandles (FixedTPSL.init 2 1).toModel "BTCUSDT" "1h" 2024
        (1/20) 0 1 0 = .ok (some t) ∧
      t.entry_price = entryPriceOf wCandles 0 0 ∧
      t.exit_price = (⟨99, "SL", 0⟩ : ExitResult).exit_price ∧
      t.pnl_gross_pct = ((⟨99, "SL", 0⟩ : ExitResult).exit_price
        / entryPriceOf wCandles 0 0 - 1) * 100 * ((1 : Nat) : ℚ) ∧
      t.fees_paid_pct = 1/20 * 2 * ((1 : Nat) : ℚ) ∧
      t.pnl_pct = t.pnl_gross_pct - t.fees_paid_pct :=
  C4_pnl_formulas wCandles (FixedTPSL.init 2 1).toModel "BTCUSDT" "1h" 2024
    (1/20) 0 1 0 ⟨99, "SL", 0⟩
    (by decide) (by decide) (by norm_num)
    (by simp [FixedTPSL.toModel, FixedTPSL.get_exit, FixedTPSL.init, scanFixed,
          wCandles, entryPriceOf]
        norm_num)

/-! ### C9 -/

/-- The running highest-high forms a non-decreasing chain from its seed. -/
theorem highTrace_chain (h0 : ℚ) (df : List Candle) :
    List.Chain (· ≤ ·) h0 (highTrace h0 df) := by
  induction df generalizing h0 with
  | nil => exact List.Chain.nil
  | cons row rest ih =>
    simp only [highTrace]
    exact List.Chain.cons (le_max_left _ _) (ih (max h0 row.high))

/-- With a trail fraction at most 1, the stop levels computed by the
TrailingStop scan form a non-decreasing chain from the seed's stop level. -/
theorem stopTrace_chain (trail : ℚ) (htrail : trail ≤ 1) (h0 : ℚ)
    (df : List Candle) :
    List.Chain (· ≤ ·) (h0 * (1 - trail)) (stopTrace trail h0 df) := by
  induction df generalizing h0 with
  | nil => exact List.Chain.nil
  | cons row rest ih =>
    simp only [stopTrace, highTrace, List.map]
    exact List.Chain.cons
      (mul_le_mul_of_nonneg_right (le_max_left _ _) (by linarith))
      (ih (max h0 row.high))

/-- C9 counterexample to the unconditional claim: with a `trail_pct` parameter
of 200 the stored trail fraction is 2, so the stop `highest * (1 - trail)`
strictly decreases as the highs rise — over two rising candles the stop trace
is `[-110, -120]`, not monotonically non-decreasing. -/
theorem C9_trailing_stop_monotone_counterexample :
    stopTrace (TrailingStop.init 200).trail_pct 100
      [⟨0, 100, 110, 100, 105, 0, none⟩, ⟨1, 105, 120, 104, 118, 0, none⟩]
      = [-110, -120] ∧
    ¬ List.Chain' (· ≤ ·)
      (stopTrace (TrailingStop.init 200).trail_pct 100
        [⟨0, 100, 110, 100, 105, 0, none⟩, ⟨1, 105, 120, 104, 118, 0, none⟩]) := by
  have h : stopTrace (TrailingStop.init 200).trail_pct 100
      [⟨0, 100, 110, 100, 105, 0, none⟩, ⟨1, 105, 120, 104, 118, 0, none⟩]
      = [-110, -120] := by
    norm_num [stopTrace, highTrace, TrailingStop.init]
  refine ⟨h, ?_⟩
  rw [h, List.chain'_cons]
  intro hch
  exact absurd hch.1 (by norm_num)

/-- C9 (amended): in the TrailingStop scan the running highest-high starts at
`entry_price` and is non-decreasing across the scan; for a trail fraction of
at most 1 (i.e. `trail_pct` parameter at most 100 — without this the
counterexample above applies) the computed stop levels
`highest * (1 - trail_pct/100)` are monotonically non-decreasing from one
scanned candle to the next. -/
theorem C9_trailing_stop_monotone (m : TrailingStop) (entry_price : ℚ)
    (df : List Candle) (htrail : m.trail_pct ≤ 1) :
    List.Chain (· ≤ ·) entry_price (highTrace entry_price df) ∧
    List.Chain' (· ≤ ·) (stopTrace m.trail_pct entry_price df) := by
  refine ⟨highTrace_chain entry_price df, ?_⟩
  have key : List.Chain' (· ≤ ·)
      (entry_price * (1 - m.trail_pct) :: stopTrace m.trail_pct entry_price df) :=
    stopTrace_chain m.trail_pct htrail entry_price df
  exact key.tail

/-- Witness for C9: TrailingStop with a 5% trail over two rising candles. -/
theorem C9_trailing_stop_monotone_witness :
    List.Chain (· ≤ ·) 100
      (highTrace 100 [⟨0, 100, 110, 100, 105, 0, none⟩,
        ⟨1, 105, 120, 104, 118, 0, none⟩]) ∧
    List.Chain' (· ≤ ·) ((TrailingStop.init 5).trail_pct |> fun tr =>
      stopTrace tr 100 [⟨0, 100, 110, 100, 105, 0, none⟩,
        ⟨1, 105, 120, 104, 118, 0, none⟩]) :=
  C9_trailing_stop_monotone (TrailingStop.init 5) 100
    [⟨0, 100, 110, 100, 105, 0, none⟩, ⟨1, 105, 120, 104, 118, 0, none⟩]
    (by norm_num [TrailingStop.init])

/-! ### C2 -/

/-- TimeBased cap behaviour: `bars_held` never exceeds `max_bars`, and the
reason is TIME exactly when the window held at least `max_bars + 1` candles. -/
theorem TimeBased_cap (m : TimeBased) (p : ℚ) (df : List Candle)
    (ec : Option Candle) (r : ExitResult) (h : m.get_exit p df ec = .ok r) :
    r.bars_held ≤ m.max_bars ∧
    ((r.reason = "TIME" ∨ r.reason = "END_OF_DATA") →
      (r.reason = "TIME" ↔ m.max_bars + 1 ≤ df.length)) := by
  simp only [TimeBased.get_exit] at h
  by_cases hemp : df.isEmpty = true
  · rw [if_pos hemp] at h
    exact absurd h (by simp)
  · rw [if_neg hemp] at h
    have hlen : 0 < df.length := by
      cases df with
      | nil => simp at hemp
      | cons a l => simp
    simp only [Except.ok.injEq] at h
    subst h
    refine ⟨Nat.min_le_left _ _, fun _ => ?_⟩
    by_cases hc : min m.max_bars (df.length - 1) = m.max_bars
    · simp only [if_pos hc]
      exact ⟨fun _ => by omega, fun _ => trivial⟩
    · simp only [if_neg hc]
      constructor
      · intro hs
        exact absurd hs (by decide)
      · intro hle
        exact absurd (by omega : min m.max_bars (df.length - 1) = m.max_bars) hc

/-- ComboExit cap behaviour, including the threshold-hit branch. -/
theorem ComboExit_cap (m : ComboExit) (p : ℚ) (df : List Candle)
    (ec : Option Candle) (r : ExitResult) (h : m.get_exit p df ec = .ok r) :
    r.bars_held ≤ m.max_bars ∧
    ((r.reason = "TIME" ∨ r.reason = "END_OF_DATA") →
      (r.reason = "TIME" ↔ m.max_bars + 1 ≤ df.length)) := by
  simp only [ComboExit.get_exit] at h
  by_cases hemp : df.isEmpty = true
  · rw [if_pos hemp] at h
    exact absurd h (by simp)
  · rw [if_neg hemp] at h
    have hlen : 0 < df.length := by
      cases df with
      | nil => simp at hemp
      | cons a l => simp
    cases hscan : scanFixed (p * m.sl_mult) (p * m.tp_mult)
        (df.take (min m.max_bars (df.length - 1) + 1)) 0 with
    | some r0 =>
      rw [hscan] at h
      simp only [Except.ok.injEq] at h
      subst h
      obtain ⟨hreason, _, hlt⟩ := scanFixed_some_spec _ _ _ _ _ hscan
      rw [List.length_take] at hlt
      refine ⟨by omega, fun hdis => ?_⟩
      exfalso
      rcases hreason with h1 | h1 <;> rcases hdis with h2 | h2 <;>
        rw [h1] at h2 <;> exact absurd h2 (by decide)
    | none =>
      rw [hscan] at h
      simp only [Except.ok.injEq] at h
      subst h
      refine ⟨Nat.min_le_left _ _, fun _ => ?_⟩
      by_cases hc : min m.max_bars (df.length - 1) = m.max_bars
      · simp only [if_pos hc]
        exact ⟨fun _ => by omega, fun _ => trivial⟩
      · simp only [if_neg hc]
        constructor
        · intro hs
          exact absurd hs (by decide)
        · intro hle
          exact absurd (by omega : min m.max_bars (df.length - 1) = m.max_bars) hc

/-- AtrComboExit cap behaviour, same shape as ComboExit. -/
theorem AtrComboExit_cap (m : AtrComboExit) (p : ℚ) (df : List Candle)
    (ec : Option Candle) (r : ExitResult) (h : m.get_exit p df ec = .ok r) :
    r.bars_held ≤ m.max_bars ∧
    ((r.reason = "TIME" ∨ r.reason = "END_OF_DATA") →
      (r.reason = "TIME" ↔ m.max_bars + 1 ≤ df.length)) := by
  simp only [AtrComboExit.get_exit] at h
  cases ec with
  | none => exact absurd h (by simp)
  | some c =>
    dsimp only at h
    cases hatr : c.atr with
    | none =>
      rw [hatr] at h
      exact absurd h (by simp)
    | some a =>
      rw [hatr] at h
      dsimp only at h
      by_cases hemp : df.isEmpty = true
      · rw [if_pos hemp] at h
        exact absurd h (by simp)
      · rw [if_neg hemp] at h
        have hlen : 0 < df.length := by
          cases df with
          | nil => simp at hemp
          | cons b l => simp
        cases hscan : scanFixed (p - a * m.sl_atr_mult) (p + a * m.tp_atr_mult)
            (df.take (min m.max_bars (df.length - 1) + 1)) 0 with
        | some r0 =>
          rw [hscan] at h
          simp only [Except.ok.injEq] at h
          subst h
          obtain ⟨hreason, _, hlt⟩ := scanFixed_some_spec _ _ _ _ _ hscan
          rw [List.length_take] at hlt
          refine ⟨by omega, fun hdis => ?_⟩
          exfalso
          rcases hreason with h1 | h1 <;> rcases hdis with h2 | h2 <;>
            rw [h1] at h2 <;> exact absurd h2 (by decide)
        | none =>
          rw [hscan] at h
          simp only [Except.ok.injEq] at h
          subst h
          refine ⟨Nat.min_le_left _ _, fun _ => ?_⟩
          by_cases hc : min m.max_bars (df.length - 1) = m.max_bars
          · simp only [if_pos hc]
            exact ⟨fun _ => by omega, fun _ => trivial⟩
          · simp only [if_neg hc]
            constructor
            · intro hs
              exact absurd hs (by decide)
            · intro hle
              exact absurd (by omega : min m.max_bars (df.length - 1) = m.max_bars) hc

/-- Three flat candles with closes 5, 6, 7, used for the time-cap results. -/
def wTimeCandles : List Candle :=
  [⟨0, 1, 1, 1, 5, 0, none⟩, ⟨1, 1, 1, 1, 6, 0, none⟩, ⟨2, 1, 1, 1, 7, 0, none⟩]

/-- C2 counterexample: TimeBased with `max_bars = 2` over a forward window of
exactly 3 candles exits at the last candle with reason TIME, although no
further data existed beyond the cap (which the claim requires for TIME). -/
theorem C2_time_cap_counterexample :
    TimeBased.get_exit ⟨2⟩ 100 wTimeCandles none = .ok ⟨7, "TIME", 2⟩ ∧
    ¬ (2 + 1 < wTimeCandles.length) := by
  constructor
  · simp [TimeBased.get_exit, wTimeCandles]
  · decide

/-- C2 (amended): for TimeBased, ComboExit and AtrComboExit, `bars_held` never
exceeds `max_bars`, and for a non-threshold exit the reason is TIME exactly
when the window held at least `max_bars + 1` candles (the cap was reached with
data at the cap); when the data runs out strictly before the cap, the reason
is END_OF_DATA, not TIME. -/
theorem C2_bars_cap_and_time_reason (mt : TimeBased) (mc : ComboExit)
    (ma : AtrComboExit) (p₁ p₂ p₃ : ℚ) (d₁ d₂ d₃ : List Candle)
    (e₁ e₂ e₃ : Option Candle) (r₁ r₂ r₃ : ExitResult)
    (h₁ : mt.get_exit p₁ d₁ e₁ = .ok r₁)
    (h₂ : mc.get_exit p₂ d₂ e₂ = .ok r₂)
    (h₃ : ma.get_exit p₃ d₃ e₃ = .ok r₃) :
    (r₁.bars_held ≤ mt.max_bars ∧
      ((r₁.reason = "TIME" ∨ r₁.reason = "END_OF_DATA") →
        (r₁.reason = "TIME" ↔ mt.max_bars + 1 ≤ d₁.length))) ∧
    (r₂.bars_held ≤ mc.max_bars ∧
      ((r₂.reason = "TIME" ∨ r₂.reason = "END_OF_DATA") →
        (r₂.reason = "TIME" ↔ mc.max_bars + 1 ≤ d₂.length))) ∧
    (r₃.bars_held ≤ ma.max_bars ∧
      ((r₃.reason = "TIME" ∨ r₃.reason = "END_OF_DATA") →
        (r₃.reason = "TIME" ↔ ma.max_bars + 1 ≤ d₃.length))) :=
  ⟨TimeBased_cap mt p₁ d₁ e₁ r₁ h₁, ComboExit_cap mc p₂ d₂ e₂ r₂ h₂,
    AtrComboExit_cap ma p₃ d₃ e₃ r₃ h₃⟩

/-- Witness for the amended C2 at `max_bars = 2` over the three-candle window:
all three policies exit at offset 2 with reason TIME. -/
theorem C2_bars_cap_and_time_reason_witness :
    ((2 : Nat) ≤ 2 ∧
      (("TIME" = "TIME" ∨ "TIME" = "END_OF_DATA") →
        ("TIME" = "TIME" ↔ 2 + 1 ≤ wTimeCandles.length))) ∧
    ((2 : Nat) ≤ 2 ∧
      (("TIME" = "TIME" ∨ "TIME" = "END_OF_DATA") →
        ("TIME" = "TIME" ↔ 2 + 1 ≤ wTimeCandles.length))) ∧
    ((2 : Nat) ≤ 2 ∧
      (("TIME" = "TIME" ∨ "TIME" = "END_OF_DATA") →
        ("TIME" = "TIME" ↔ 2 + 1 ≤ wTimeCandles.length))) :=
  C2_bars_cap_and_time_reason ⟨2⟩ (ComboExit.init 50 50 2) ⟨1, 1, 2⟩
    100 1 1 wTimeCandles wTimeCandles wTimeCandles
    none none (some ⟨0, 1, 1, 1, 1, 0, some 10⟩)
    ⟨7, "TIME", 2⟩ ⟨7, "TIME", 2⟩ ⟨7, "TIME", 2⟩
    (by simp [TimeBased.get_exit, wTimeCandles])
    (by simp [ComboExit.get_exit, ComboExit.init, scanFixed, wTimeCandles]
        norm_num)
    (by simp [AtrComboExit.get_exit, scanFixed, wTimeCandles]
        norm_num)

/-! ### C3 -/

/-- C3: in the threshold-scanning policies (FixedTPSL, ComboExit,
AtrComboExit) the stop-loss condition `low <= sl` is checked before the
take-profit condition `high >= tp` within each scanned candle: when the first
qualifying candle (offset `i`, no earlier candle touching either threshold)
satisfies both conditions, the recorded exit is SL — never TP — at the
stop-loss price, and `i` becomes `bars_held`. -/
theorem C3_sl_checked_before_tp :
    (∀ (m : FixedTPSL) (p : ℚ) (df : List Candle) (ec : Option Candle) (i : Nat),
      i < df.length →
      (df.getD i default).low ≤ p * m.sl_mult →
      p * m.tp_mult ≤ (df.getD i default).high →
      (∀ j, j < i → ¬ (df.getD j default).low ≤ p * m.sl_mult ∧
        ¬ p * m.tp_mult ≤ (df.getD j default).high) →
      m.get_exit p df ec = .ok ⟨p * m.sl_mult, "SL", i⟩) ∧
    (∀ (m : ComboExit) (p : ℚ) (df : List Candle) (ec : Option Candle) (i : Nat),
      i < df.length → i ≤ m.max_bars →
      (df.getD i default).low ≤ p * m.sl_mult →
      p * m.tp_mult ≤ (df.getD i default).high →
      (∀ j, j < i → ¬ (df.getD j default).low ≤ p * m.sl_mult ∧
        ¬ p * m.tp_mult ≤ (df.getD j default).high) →
      m.get_exit p df ec = .ok ⟨p * m.sl_mult, "SL", i⟩) ∧
    (∀ (m : AtrComboExit) (p a : ℚ) (df : List Candle) (c : Candle) (i : Nat),
      c.atr = some a →
      i < df.length → i ≤ m.max_bars →
      (df.getD i default).low ≤ p - a * m.sl_atr_mult →
      p + a * m.tp_atr_mult ≤ (df.getD i default).high →
      (∀ j, j < i → ¬ (df.getD j default).low ≤ p - a * m.sl_atr_mult ∧
        ¬ p + a * m.tp_atr_mult ≤ (df.getD j default).high) →
      m.get_exit p df (some c) = .ok ⟨p - a * m.sl_atr_mult, "SL", i⟩) := by
  refine ⟨?_, ?_, ?_⟩
  · intro m p df ec i hi hlow hhigh hfirst
    have hscan : scanFixed (p * m.sl_mult) (p * m.tp_mult) df 0
        = some ⟨p * m.sl_mult, "SL", i⟩ := by
      simpa using scanFixed_eq_first_SL (p * m.sl_mult) (p * m.tp_mult) df i 0
        hi hlow hfirst
    simp only [FixedTPSL.get_exit, hscan]
  · intro m p df ec i hi hcap hlow hhigh hfirst
    have hemp : ¬ df.isEmpty = true := by
      cases df with
      | nil => simp at hi
      | cons b l => simp
    have hilim : i < min m.max_bars (df.length - 1) + 1 := by omega
    have hitake : i < (df.take (min m.max_bars (df.length - 1) + 1)).length := by
      rw [List.length_take]
      omega
    have hlowt : ((df.take (min m.max_bars (df.length - 1) + 1)).getD i default).low
        ≤ p * m.sl_mult := by
      rw [getD_take_eq df _ i hilim]
      exact hlow
    have hfirstt : ∀ j, j < i →
        ¬ ((df.take (min m.max_bars (df.length - 1) + 1)).getD j default).low
          ≤ p * m.sl_mult ∧
        ¬ p * m.tp_mult
          ≤ ((df.take (min m.max_bars (df.length - 1) + 1)).getD j default).high := by
      intro j hj
      rw [getD_take_eq df _ j (by omega)]
      exact hfirst j hj
    have hscan : scanFixed (p * m.sl_mult) (p * m.tp_mult)
        (df.take (min m.max_bars (df.length - 1) + 1)) 0
        = some ⟨p * m.sl_mult, "SL", i⟩ := by
      simpa using scanFixed_eq_first_SL (p * m.sl_mult) (p * m.tp_mult)
        (df.take (min m.max_bars (df.length - 1) + 1)) i 0 hitake hlowt hfirstt
    simp only [ComboExit.get_exit, if_neg hemp, hscan]
  · intro m p a df c i hatr hi hcap hlow hhigh hfirst
    have hemp : ¬ df.isEmpty = true := by
      cases df with
      | nil => simp at hi
      | cons b l => simp
    have hilim : i < min m.max_bars (df.length - 1) + 1 := by omega
    have hitake : i < (df.take (min m.max_bars (df.length - 1) + 1)).length := by
      rw [List.length_take]
      omega
    have hlowt : ((df.take (min m.max_bars (df.length - 1) + 1)).getD i default).low
        ≤ p - a * m.sl_atr_mult := by
      rw [getD_take_eq df _ i hilim]
      exact hlow
    have hfirstt : ∀ j, j < i →
        ¬ ((df.take (min m.max_bars (df.length - 1) + 1)).getD j default).low
          ≤ p - a * m.sl_atr_mult ∧
        ¬ p + a * m.tp_atr_mult
          ≤ ((df.take (min m.max_bars (df.length - 1) + 1)).getD j default).high := by
      intro j hj
      rw [getD_take_eq df _ j (by omega)]
      exact hfirst j hj
    have hscan : scanFixed (p - a * m.sl_atr_mult) (p + a * m.tp_atr_mult)
        (df.take (min m.max_bars (df.length - 1) + 1)) 0
        = some ⟨p - a * m.sl_atr_mult, "SL", i⟩ := by
      simpa using scanFixed_eq_first_SL (p - a * m.sl_atr_mult)
        (p + a * m.tp_atr_mult)
        (df.take (min m.max_bars (df.length - 1) + 1)) i 0 hitake hlowt hfirstt
    simp only [AtrComboExit.get_exit, hatr, if_neg hemp, hscan]

/-- Witness for C3: a single candle touching both the 2% TP (high 103 ≥ 102)
and the 1% SL (low 99 ≤ 99) records SL, not TP. -/
theorem C3_sl_checked_before_tp_witness :
    (FixedTPSL.init 2 1).get_exit 100 [⟨0, 100, 103, 99, 100, 0, none⟩] none
      = .ok ⟨100 * (FixedTPSL.init 2 1).sl_mult, "SL", 0⟩ :=
  C3_sl_checked_before_tp.1 (FixedTPSL.init 2 1) 100
    [⟨0, 100, 103, 99, 100, 0, none⟩] none 0
    (by decide)
    (by norm_num [FixedTPSL.init])
    (by norm_num [FixedTPSL.init])
    (fun j hj => absurd hj (Nat.not_lt_zero j))

/-! ### C7 -/

/-- An exception raised while handling any signal in the loop's list aborts
the whole run with an error. -/
theorem runSignals_error_mem (df : List Candle) (em : ExitModelFn)
    (symbol interval : String) (year : Int) (fees slip : ℚ) (lev : Nat) :
    ∀ (l : List Nat) (s : Nat) (e : String), s ∈ l →
    processSignal df em symbol interval year fees slip lev s = .error e →
    ∃ e2, runSignals df em symbol interval year fees slip lev l = .error e2 := by
  intro l
  induction l with
  | nil =>
    intro s e hmem
    simp at hmem
  | cons a rest ih =>
    intro s e hmem hps
    cases hpa : processSignal df em symbol interval year fees slip lev a with
    | error e3 =>
      exact ⟨e3, by simp only [runSignals, hpa]⟩
    | ok t? =>
      have hsr : s ∈ rest := by
        rcases List.mem_cons.mp hmem with h | h
        · subst h
          rw [hps] at hpa
          cases hpa
        · exact h
      obtain ⟨e2, he2⟩ := ih s e hsr hps
      cases t? with
      | none => exact ⟨e2, by simp only [runSignals, hpa, he2]⟩
      | some t => exact ⟨e2, by simp only [runSignals, hpa, he2]⟩

/-- C7: `AtrComboExit.get_exit` raises when no entry candle is supplied or the
`atr` field is absent from it, and an error raised while handling a triggered
signal propagates out of `run_backtest` as an error — never swallowed. -/
theorem C7_atr_error_and_propagation :
    (∀ (m : AtrComboExit) (p : ℚ) (df : List Candle),
      AtrComboExit.get_exit m p df none
        = .error "AtrComboExit requires atr column to be present in df / entry_candle") ∧
    (∀ (m : AtrComboExit) (p : ℚ) (df : List Candle) (ec : Candle),
      ec.atr = none →
      AtrComboExit.get_exit m p df (some ec)
        = .error "AtrComboExit requires atr column to be present in df / entry_candle") ∧
    (∀ (df : List Candle) (em : ExitModelFn) (symbol interval : String)
      (year : Int) (fees slip : ℚ) (lev : Nat) (signals : List Bool)
      (s : Nat) (e : String),
      s ∈ signalIndices signals →
      processSignal df em symbol interval year fees slip lev s = .error e →
      ∃ e2, run_backtest df signals em symbol interval year fees slip lev
        = .error e2) := by
  refine ⟨fun m p df => rfl, ?_, ?_⟩
  · intro m p df ec hatr
    simp only [AtrComboExit.get_exit, hatr]
  · intro df em symbol interval year fees slip lev signals s e hmem hps
    exact runSignals_error_mem df em symbol interval year fees slip lev
      (signalIndices signals) s e hmem hps

/-- Witness for C7: an entry candle without `atr` makes `AtrComboExit` raise,
and a concrete full run over candles lacking `atr` ends in an error. -/
theorem C7_atr_error_and_propagation_witness :
    (AtrComboExit.get_exit ⟨1, 1, 5⟩ 100 wCandles (some ⟨0, 1, 1, 1, 1, 0, none⟩)
      = .error "AtrComboExit requires atr column to be present in df / entry_candle") ∧
    (∃ e2, run_backtest wCandles [true, false, false] (AtrComboExit.toModel ⟨1, 1, 5⟩)
      "BTCUSDT" "1h" 2024 (1/20) 0 1 = .error e2) :=
  ⟨C7_atr_error_and_propagation.2.1 ⟨1, 1, 5⟩ 100 wCandles ⟨0, 1, 1, 1, 1, 0, none⟩ rfl,
    C7_atr_error_and_propagation.2.2 wCandles (AtrComboExit.toModel ⟨1, 1, 5⟩)
      "BTCUSDT" "1h" 2024 (1/20) 0 1 [true, false, false] 0
      "AtrComboExit requires atr column to be present in df / entry_candle"
      (by decide)
      (by simp [processSignal, AtrComboExit.toModel, AtrComboExit.get_exit,
            liqPriceOf, wCandles])⟩
